import Mathlib

/-!
Message compression glue (src/core/lib/compression/message_compress.cc).

A shallow embedding of the streaming (de)compression adapter.  The zlib and
zstd libraries are external: their entry points are parameters of the model
(`ZlibCodec`, `ZstdCodec`), so every theorem quantified over a codec holds for
every behaviour of the codec steps.  Loops whose exit depends on the codec
carry a fuel argument; `none` means that the call does not return (fuel
exhausted, or a `GPR_ASSERT` aborted the process).
-/

namespace MessageCompress

/-- One octet of payload; the glue never inspects its value. -/
abbrev Byte := Nat

/-- The macro OUTPUT_BLOCK_SIZE. -/
def OUTPUT_BLOCK_SIZE : Nat := 1024

/-- The constant uint_max, all ones in a 32 bit uInt. -/
def uint_max : Nat := 2 ^ 32 - 1

/-! ## Chunk buffer -/

/-- Modelled from the spec: the type grpc_slice (declared outside src/), "an
immutable byte range"; reference counts are not modelled. -/
structure grpc_slice where
  bytes : List Byte
deriving DecidableEq, Repr

/-- The macro GRPC_SLICE_LENGTH. -/
def GRPC_SLICE_LENGTH (s : grpc_slice) : Nat := s.bytes.length

/-- Modelled from the spec: the type grpc_slice_buffer (declared outside src/),
an "ordered sequence of Chunks" with a stored byte length.  The field count of
the C struct is the length of the list of live slices. -/
structure grpc_slice_buffer where
  slices : List grpc_slice
  length : Nat
deriving DecidableEq, Repr

namespace grpc_slice_buffer

/-- The field count: number of chunks held. -/
def count (sb : grpc_slice_buffer) : Nat := sb.slices.length

/-- The logical payload: all chunks concatenated in order. -/
def bytes (sb : grpc_slice_buffer) : List Byte :=
  sb.slices.foldr (fun s acc => s.bytes ++ acc) []

/-- The data-model invariant of the spec: length is the sum of the chunk lengths. -/
def WF (sb : grpc_slice_buffer) : Prop := sb.length = sb.bytes.length

instance (sb : grpc_slice_buffer) : Decidable sb.WF := by
  unfold WF; exact inferInstance

end grpc_slice_buffer

/-- Modelled from the spec: grpc_slice_buffer_add_indexed (defined outside
src/), "append (adds one chunk, increases count/length)". -/
def grpc_slice_buffer_add_indexed (sb : grpc_slice_buffer) (s : grpc_slice) :
    grpc_slice_buffer :=
  { slices := sb.slices ++ [s], length := sb.length + GRPC_SLICE_LENGTH s }

/-- Modelled from the spec: grpc_slice_buffer_add (defined outside src/),
"append (adds one chunk, increases count/length)". -/
def grpc_slice_buffer_add (sb : grpc_slice_buffer) (s : grpc_slice) :
    grpc_slice_buffer :=
  { slices := sb.slices ++ [s], length := sb.length + GRPC_SLICE_LENGTH s }

/-- The rollback written out in zlib_compress, zlib_decompress, errorZCompress
and errorZDecompress: the slices from count_before on are released, then
`count = count_before; length = length_before`. -/
def restore (sb : grpc_slice_buffer) (count_before length_before : Nat) :
    grpc_slice_buffer :=
  { slices := sb.slices.take count_before, length := length_before }

/-- What a call hands back: the int it returns, the output buffer afterwards,
and (ghost) the number of codec transform steps it made. -/
structure Outcome where
  ret : Int
  output : grpc_slice_buffer
  calls : Nat
deriving DecidableEq, Repr

/-! ## zlib -/

def Z_OK : Int := 0
def Z_STREAM_END : Int := 1
def Z_BUF_ERROR : Int := -5
def Z_NO_FLUSH : Int := 0
def Z_FINISH : Int := 4

/-- Effect of one call `flate(zs, flush)`: the status returned, how many input
bytes were consumed, the bytes written at next_out, the new session state. -/
structure FlateResult (σ : Type) where
  r : Int
  consumed : Nat
  produced : List Byte
  state : σ

/-- A transform step (deflate or inflate) seen from the glue: it reads the
session, the unread input, the room left in the scratch block and the flush
mode. -/
abbrev Flate (σ : Type) := σ → List Byte → Nat → Int → FlateResult σ

/-- The zlib entry points used by the glue.  deflateInit2 and inflateInit2
are asserted to return Z_OK, so only the session they set up is kept; their
argument is the gzip flag. -/
structure ZlibCodec (σ : Type) where
  deflateInit2 : Bool → σ
  inflateInit2 : Bool → σ
  deflate : Flate σ
  inflate : Flate σ

/-- The struct z_stream together with the scratch block it points into:
next_in is the unread part of the current input chunk (avail_in is its
length), out holds the bytes written into the scratch block so far (avail_out
is the room left). -/
structure z_stream (σ : Type) where
  internal : σ
  next_in : List Byte
  out : List Byte

namespace z_stream

def avail_in {σ : Type} (zs : z_stream σ) : Nat := zs.next_in.length

def avail_out {σ : Type} (zs : z_stream σ) : Nat := OUTPUT_BLOCK_SIZE - zs.out.length

end z_stream

/-- The locals of zlib_body that live across its loops. -/
structure BodyState (σ : Type) where
  zs : z_stream σ
  output : grpc_slice_buffer
  r : Int
  calls : Nat

/-- Lines 58-64 of zlib_body: a full scratch block is appended to output and a
fresh block is allocated. -/
def zlib_rotate {σ : Type} (st : BodyState σ) : BodyState σ :=
  if st.zs.avail_out = 0 then
    { st with
      output := grpc_slice_buffer_add_indexed st.output { bytes := st.zs.out }
      zs := { st.zs with out := [] } }
  else st

/-- Line 65 of zlib_body: `r = flate(zs, flush)`.  The codec cannot consume
more than avail_in nor write more than avail_out. -/
def zlib_step {σ : Type} (flate : Flate σ) (flush : Int) (st : BodyState σ) :
    BodyState σ :=
  let res := flate st.zs.internal st.zs.next_in st.zs.avail_out flush
  { st with
    zs := { internal := res.state
            next_in := st.zs.next_in.drop res.consumed
            out := st.zs.out ++ res.produced.take st.zs.avail_out }
    r := res.r
    calls := st.calls + 1 }

/-- The do-while loop of zlib_body (lines 57-70).  The flag is false when the
loop is left by `goto error`. -/
def zlib_body_inner {σ : Type} (flate : Flate σ) (flush : Int) :
    Nat → BodyState σ → Option (Bool × BodyState σ)
  | 0, _ => none
  | fuel + 1, st =>
    let st2 := zlib_step flate flush (zlib_rotate st)
    if st2.r < 0 ∧ st2.r ≠ Z_BUF_ERROR then some (false, st2)
    else if st2.zs.avail_out = 0 then zlib_body_inner flate flush fuel st2
    else some (true, st2)

/-- The for loop of zlib_body (lines 52-75) over the input slices still to be
read.  The flag is false when the loop is left by `goto error`. -/
def zlib_body_loop {σ : Type} (flate : Flate σ) (fuel : Nat) :
    List grpc_slice → Int → BodyState σ → Option (Bool × BodyState σ)
  | [], _, st => some (true, st)
  | s :: rest, flush, st =>
    let flush := if rest.isEmpty then Z_FINISH else flush
    if GRPC_SLICE_LENGTH s > uint_max then none
    else
      match zlib_body_inner flate flush fuel
          { st with zs := { st.zs with next_in := s.bytes } } with
      | none => none
      | some (false, st2) => some (false, st2)
      | some (true, st2) =>
        if st2.zs.avail_in ≠ 0 then some (false, st2)
        else zlib_body_loop flate fuel rest flush st2

/-- The function zlib_body.  It returns the int result with the final locals. -/
def zlib_body {σ : Type} (flate : Flate σ) (fuel : Nat) (zs : σ)
    (input output : grpc_slice_buffer) : Option (Int × BodyState σ) :=
  let st0 : BodyState σ :=
    { zs := { internal := zs, next_in := [], out := [] }
      output := output, r := Z_STREAM_END, calls := 0 }
  match zlib_body_loop flate fuel input.slices Z_NO_FLUSH st0 with
  | none => none
  | some (false, st) => some (0, st)
  | some (true, st) =>
    if st.r ≠ Z_STREAM_END then some (0, st)
    else
      some (1, { st with
        output := grpc_slice_buffer_add_indexed st.output
          { bytes := st.zs.out.take (OUTPUT_BLOCK_SIZE - st.zs.avail_out) } })

/-- The function zlib_compress. -/
def zlib_compress {σ : Type} (c : ZlibCodec σ) (fuel : Nat)
    (input output : grpc_slice_buffer) (gzip : Bool) : Option Outcome :=
  let count_before := output.count
  let length_before := output.length
  match zlib_body c.deflate fuel (c.deflateInit2 gzip) input output with
  | none => none
  | some (b, st) =>
    let r : Int := if b ≠ 0 ∧ st.output.length < input.length then 1 else 0
    if r = 0 then
      some { ret := r, output := restore st.output count_before length_before,
             calls := st.calls }
    else some { ret := r, output := st.output, calls := st.calls }

/-- The function zlib_decompress. -/
def zlib_decompress {σ : Type} (c : ZlibCodec σ) (fuel : Nat)
    (input output : grpc_slice_buffer) (gzip : Bool) : Option Outcome :=
  let count_before := output.count
  let length_before := output.length
  match zlib_body c.inflate fuel (c.inflateInit2 gzip) input output with
  | none => none
  | some (r, st) =>
    if r = 0 then
      some { ret := r, output := restore st.output count_before length_before,
             calls := st.calls }
    else some { ret := r, output := st.output, calls := st.calls }

/-! ## zstd -/

inductive ZSTD_EndDirective where
  | ZSTD_e_continue
  | ZSTD_e_flush
  | ZSTD_e_end
deriving DecidableEq, Repr

/-- Effect of one ZSTD_compressStream2 or ZSTD_decompressStream call: the
size_t returned, how far inBuffer.pos advanced, the bytes written at
outBuffer.pos, the new session. -/
structure ZstdResult (σ : Type) where
  err : Nat
  consumed : Nat
  produced : List Byte
  state : σ

/-- The zstd entry points used by the glue.  A transform step reads the
session, the room left in the scratch block and the unread input.  Releasing a
session hands back what the stale pointer then refers to. -/
structure ZstdCodec (σ : Type) where
  ZSTD_isError : Nat → Bool
  ZSTD_createCStream : σ
  ZSTD_initCStream : σ → Nat × σ
  ZSTD_compressStream2 : σ → Nat → List Byte → ZSTD_EndDirective → ZstdResult σ
  ZSTD_freeCStream : σ → Nat × σ
  ZSTD_createDStream : σ
  ZSTD_initDStream : σ → Nat × σ
  ZSTD_decompressStream : σ → Nat → List Byte → ZstdResult σ
  ZSTD_freeDStream : σ → Nat × σ

/-- The locals of zstd_compress and zstd_decompress that live across their
loops: inBuffer is the part of the current chunk from pos to size (so
`pos == size` iff it is empty), outbuf the bytes of the scratch block below
outBuffer.pos. -/
structure ZstdState (σ : Type) where
  pStream : σ
  inBuffer : List Byte
  outbuf : List Byte
  output : grpc_slice_buffer
  err : Nat
  calls : Nat
deriving DecidableEq

/-- The function errorZCompress.  Releasing the scratch slice has no effect on
the model; the session is released when a pointer to it is passed. -/
def errorZCompress {σ : Type} (c : ZstdCodec σ) (pStream : Option σ)
    (countBefore lengthBefore : Nat) (outbuf : grpc_slice_buffer) :
    Option σ × grpc_slice_buffer :=
  (pStream.map (fun p => (c.ZSTD_freeCStream p).2),
   restore outbuf countBefore lengthBefore)

/-- The function errorZDecompress. -/
def errorZDecompress {σ : Type} (c : ZstdCodec σ) (pStream : Option σ)
    (countBefore lengthBefore : Nat) (outbuf : grpc_slice_buffer) :
    Option σ × grpc_slice_buffer :=
  (pStream.map (fun p => (c.ZSTD_freeDStream p).2),
   restore outbuf countBefore lengthBefore)

/-- The block `if (outBuffer.pos == outBuffer.size) ...` of both zstd loops. -/
def zstd_rotate {σ : Type} (st : ZstdState σ) : ZstdState σ :=
  if st.outbuf.length = OUTPUT_BLOCK_SIZE then
    { st with
      output := grpc_slice_buffer_add_indexed st.output { bytes := st.outbuf }
      outbuf := [] }
  else st

/-- One call `err = ZSTD_compressStream2(pStream, &outBuffer, &inBuffer, d)`. -/
def zstd_cstep {σ : Type} (c : ZstdCodec σ) (d : ZSTD_EndDirective)
    (st : ZstdState σ) : ZstdState σ :=
  let room := OUTPUT_BLOCK_SIZE - st.outbuf.length
  let res := c.ZSTD_compressStream2 st.pStream room st.inBuffer d
  { st with
    pStream := res.state
    inBuffer := st.inBuffer.drop res.consumed
    outbuf := st.outbuf ++ res.produced.take room
    err := res.err
    calls := st.calls + 1 }

/-- One call `err = ZSTD_decompressStream(pStream, &outBuffer, &inBuffer)`. -/
def zstd_dstep {σ : Type} (c : ZstdCodec σ) (st : ZstdState σ) : ZstdState σ :=
  let room := OUTPUT_BLOCK_SIZE - st.outbuf.length
  let res := c.ZSTD_decompressStream st.pStream room st.inBuffer
  { st with
    pStream := res.state
    inBuffer := st.inBuffer.drop res.consumed
    outbuf := st.outbuf ++ res.produced.take room
    err := res.err
    calls := st.calls + 1 }

/-- An error exit of zstd_compress inside the loops:
`errorZCompress(&pStream, count_before, length_before, output, &outbuf)`. -/
def zstd_cfail {σ : Type} (c : ZstdCodec σ) (count_before length_before : Nat)
    (st : ZstdState σ) : ZstdState σ :=
  let e := errorZCompress c (some st.pStream) count_before length_before st.output
  { st with pStream := e.1.getD st.pStream, output := e.2 }

/-- The directive chosen on line 235. -/
def zstd_directive (lastChunk : Bool) : ZSTD_EndDirective :=
  if lastChunk then ZSTD_EndDirective.ZSTD_e_end else ZSTD_EndDirective.ZSTD_e_flush

/-- The loop `while (!finished)` of zstd_compress (lines 225-244).  The flag
is false when the function returned 0 from inside the loop. -/
def zstd_compress_finish {σ : Type} (c : ZstdCodec σ)
    (count_before length_before : Nat) (lastChunk : Bool) :
    Nat → ZstdState σ → Option (Bool × ZstdState σ)
  | 0, _ => none
  | fuel + 1, st =>
    let st2 := zstd_cstep c (zstd_directive lastChunk) (zstd_rotate st)
    if c.ZSTD_isError st2.err then
      some (false, zstd_cfail c count_before length_before st2)
    else
      let finished : Bool :=
        if lastChunk then st2.err == 0 else st2.inBuffer.isEmpty
      if finished then some (true, st2)
      else zstd_compress_finish c count_before length_before lastChunk fuel st2

/-- The for loop of zstd_compress (lines 209-251) over the input slices still
to be read.  The flag is false when the function returned 0 from inside. -/
def zstd_compress_loop {σ : Type} (c : ZstdCodec σ)
    (count_before length_before : Nat) (fuel : Nat) :
    List grpc_slice → ZstdState σ → Option (Bool × ZstdState σ)
  | [], st => some (true, st)
  | s :: rest, st =>
    if GRPC_SLICE_LENGTH s > uint_max then none
    else
      let st1 := zstd_cstep c ZSTD_EndDirective.ZSTD_e_continue
        { st with inBuffer := s.bytes }
      if c.ZSTD_isError st1.err then
        some (false, zstd_cfail c count_before length_before st1)
      else
        let lastChunk := rest.isEmpty
        match zstd_compress_finish c count_before length_before lastChunk fuel st1 with
        | none => none
        | some (false, st2) => some (false, st2)
        | some (true, st2) =>
          if ¬ st2.inBuffer.isEmpty then
            some (false, zstd_cfail c count_before length_before st2)
          else zstd_compress_loop c count_before length_before fuel rest st2

/-- The function zstd_compress. -/
def zstd_compress {σ : Type} (c : ZstdCodec σ) (fuel : Nat)
    (input output : grpc_slice_buffer) : Option Outcome :=
  let count_before := output.count
  let length_before := output.length
  let init := c.ZSTD_initCStream c.ZSTD_createCStream
  if c.ZSTD_isError init.1 then
    some { ret := 0
           output := (errorZCompress c (some init.2) count_before length_before output).2
           calls := 0 }
  else
    match zstd_compress_loop c count_before length_before fuel input.slices
        { pStream := init.2, inBuffer := [], outbuf := [], output := output,
          err := init.1, calls := 0 } with
    | none => none
    | some (false, st) => some { ret := 0, output := st.output, calls := st.calls }
    | some (true, st) =>
      if c.ZSTD_isError (c.ZSTD_freeCStream st.pStream).1 then
        some { ret := 0
               output := (errorZCompress c none count_before length_before st.output).2
               calls := st.calls }
      else
        let output1 := grpc_slice_buffer_add_indexed st.output { bytes := st.outbuf }
        if output1.length > input.length then
          some { ret := 0
                 output := (errorZCompress c none count_before length_before output1).2
                 calls := st.calls }
        else some { ret := 1, output := output1, calls := st.calls }

/-- The error branch on lines 313-317 of zstd_decompress: errorZDecompress is
called and control falls through to line 318; the locals keep referring to the
released session and scratch block. -/
def zstd_dfail {σ : Type} (c : ZstdCodec σ) (count_before length_before : Nat)
    (st : ZstdState σ) : ZstdState σ :=
  let e := errorZDecompress c (some st.pStream) count_before length_before st.output
  { st with pStream := e.1.getD st.pStream, output := e.2 }

/-- The do-while loop of zstd_decompress (lines 301-321). -/
def zstd_decompress_inner {σ : Type} (c : ZstdCodec σ)
    (count_before length_before : Nat) :
    Nat → ZstdState σ → Option (ZstdState σ)
  | 0, _ => none
  | fuel + 1, st =>
    let st2 := zstd_dstep c (zstd_rotate st)
    let st3 :=
      if c.ZSTD_isError st2.err then zstd_dfail c count_before length_before st2
      else st2
    if st3.outbuf.length < OUTPUT_BLOCK_SIZE then some st3
    else zstd_decompress_inner c count_before length_before fuel st3

/-- The for loop of zstd_decompress (lines 295-328).  The flag is false when
the function returned 0 from inside. -/
def zstd_decompress_loop {σ : Type} (c : ZstdCodec σ)
    (count_before length_before : Nat) (fuel : Nat) :
    List grpc_slice → ZstdState σ → Option (Bool × ZstdState σ)
  | [], st => some (true, st)
  | s :: rest, st =>
    if GRPC_SLICE_LENGTH s > uint_max then none
    else
      match zstd_decompress_inner c count_before length_before fuel
          { st with inBuffer := s.bytes } with
      | none => none
      | some st2 =>
        if ¬ st2.inBuffer.isEmpty then
          some (false, zstd_dfail c count_before length_before st2)
        else zstd_decompress_loop c count_before length_before fuel rest st2

/-- The function zstd_decompress. -/
def zstd_decompress {σ : Type} (c : ZstdCodec σ) (fuel : Nat)
    (input output : grpc_slice_buffer) : Option Outcome :=
  let count_before := output.count
  let length_before := output.length
  let init := c.ZSTD_initDStream c.ZSTD_createDStream
  if c.ZSTD_isError init.1 then
    some { ret := 0
           output := (errorZDecompress c (some init.2) count_before length_before output).2
           calls := 0 }
  else
    match zstd_decompress_loop c count_before length_before fuel input.slices
        { pStream := init.2, inBuffer := [], outbuf := [], output := output,
          err := init.1, calls := 0 } with
    | none => none
    | some (false, st) => some { ret := 0, output := st.output, calls := st.calls }
    | some (true, st) =>
      let output1 := grpc_slice_buffer_add_indexed st.output { bytes := st.outbuf }
      if c.ZSTD_isError (c.ZSTD_freeDStream st.pStream).1 then
        some { ret := 0
               output := (errorZDecompress c none count_before length_before output1).2
               calls := st.calls }
      else some { ret := 1, output := output1, calls := st.calls }

/-! ## Dispatcher -/

inductive grpc_compression_algorithm where
  | GRPC_COMPRESS_NONE
  | GRPC_COMPRESS_DEFLATE
  | GRPC_COMPRESS_GZIP
  | GRPC_COMPRESS_ZSTD
  | GRPC_COMPRESS_ALGORITHMS_COUNT
deriving DecidableEq, Repr

open grpc_compression_algorithm

/-- The function copy. -/
def copy (input output : grpc_slice_buffer) : Int × grpc_slice_buffer :=
  (1, input.slices.foldl grpc_slice_buffer_add output)

/-- The function compress_inner. -/
def compress_inner {σ τ : Type} (zl : ZlibCodec σ) (zs : ZstdCodec τ) (fuel : Nat)
    (algorithm : grpc_compression_algorithm) (input output : grpc_slice_buffer) :
    Option Outcome :=
  match algorithm with
  | GRPC_COMPRESS_NONE => some { ret := 0, output := output, calls := 0 }
  | GRPC_COMPRESS_DEFLATE => zlib_compress zl fuel input output false
  | GRPC_COMPRESS_GZIP => zlib_compress zl fuel input output true
  | GRPC_COMPRESS_ZSTD => zstd_compress zs fuel input output
  | GRPC_COMPRESS_ALGORITHMS_COUNT => some { ret := 0, output := output, calls := 0 }

/-- The function grpc_msg_compress. -/
def grpc_msg_compress {σ τ : Type} (zl : ZlibCodec σ) (zs : ZstdCodec τ) (fuel : Nat)
    (algorithm : grpc_compression_algorithm) (input output : grpc_slice_buffer) :
    Option Outcome :=
  match compress_inner zl zs fuel algorithm input output with
  | none => none
  | some o =>
    if o.ret = 0 then
      some { ret := 0, output := (copy input o.output).2, calls := o.calls }
    else some { ret := 1, output := o.output, calls := o.calls }

/-- The function grpc_msg_decompress. -/
def grpc_msg_decompress {σ τ : Type} (zl : ZlibCodec σ) (zs : ZstdCodec τ) (fuel : Nat)
    (algorithm : grpc_compression_algorithm) (input output : grpc_slice_buffer) :
    Option Outcome :=
  match algorithm with
  | GRPC_COMPRESS_NONE =>
    some { ret := (copy input output).1, output := (copy input output).2, calls := 0 }
  | GRPC_COMPRESS_DEFLATE => zlib_decompress zl fuel input output false
  | GRPC_COMPRESS_GZIP => zlib_decompress zl fuel input output true
  | GRPC_COMPRESS_ZSTD => zstd_decompress zs fuel input output
  | GRPC_COMPRESS_ALGORITHMS_COUNT => some { ret := 0, output := output, calls := 0 }

/-! ## Concrete buffers and codecs used to evaluate the model -/

/-- The buffer with no chunk. -/
def emptyBuf : grpc_slice_buffer := { slices := [], length := 0 }

/-- A buffer with the single chunk 1, 2, 3. -/
def buf123 : grpc_slice_buffer := { slices := [{ bytes := [1, 2, 3] }], length := 3 }

/-- A buffer with the single chunk 9. -/
def buf9 : grpc_slice_buffer := { slices := [{ bytes := [9] }], length := 1 }

/-- A buffer with the two chunks 1 and 2. -/
def buf1_2 : grpc_slice_buffer :=
  { slices := [{ bytes := [1] }, { bytes := [2] }], length := 2 }

/-- A buffer with an empty chunk followed by the chunk 5. -/
def bufE_5 : grpc_slice_buffer :=
  { slices := [{ bytes := [] }, { bytes := [5] }], length := 1 }

/-- A zlib whose transform steps move the input through unchanged (a stored
stream) and report Z_STREAM_END once a Z_FINISH step has room for all of it. -/
def zlibStored : ZlibCodec Unit where
  deflateInit2 := fun _ => ()
  inflateInit2 := fun _ => ()
  deflate := fun s inp room flush =>
    { r := if flush = Z_FINISH ∧ inp.length ≤ room then Z_STREAM_END else Z_OK
      consumed := min inp.length room, produced := inp.take room, state := s }
  inflate := fun s inp room flush =>
    { r := if flush = Z_FINISH ∧ inp.length ≤ room then Z_STREAM_END else Z_OK
      consumed := min inp.length room, produced := inp.take room, state := s }

/-- The test ZSTD_isError of the zstd library: the error codes are the 119
highest values of size_t. -/
def zstdIsError (code : Nat) : Bool := decide (2 ^ 64 - 120 < code)

/-- An error code of the zstd library, (size_t)-1. -/
def zstdErrorCode : Nat := 2 ^ 64 - 1

/-- A zstd that stores: a continue step takes the whole input into the
session, a flush or end step writes out what the session holds as far as there
is room and returns the number of bytes still held; a decode step moves the
input through and returns the number of bytes it could not write. -/
def zstdStored : ZstdCodec (List Byte) where
  ZSTD_isError := zstdIsError
  ZSTD_createCStream := []
  ZSTD_initCStream := fun s => (0, s)
  ZSTD_compressStream2 := fun s room inp d =>
    match d with
    | ZSTD_EndDirective.ZSTD_e_continue =>
      { err := (s ++ inp).length, consumed := inp.length, produced := [], state := s ++ inp }
    | _ =>
      { err := ((s ++ inp).drop room).length, consumed := inp.length,
        produced := (s ++ inp).take room, state := (s ++ inp).drop room }
  ZSTD_freeCStream := fun s => (0, s)
  ZSTD_createDStream := []
  ZSTD_initDStream := fun s => (0, s)
  ZSTD_decompressStream := fun s room inp =>
    { err := inp.length - room, consumed := min inp.length room,
      produced := inp.take room, state := s }
  ZSTD_freeDStream := fun s => (0, s)

/-- A zstd fed a truncated frame: every decode step takes all the input it is
given, writes it out, and returns 3, the number of bytes it still expects. -/
def zstdTruncated : ZstdCodec (List Byte) :=
  { zstdStored with
    ZSTD_decompressStream := fun s room inp =>
      { err := 3, consumed := inp.length, produced := inp.take room, state := s } }

/-- A zstd session counting its decode steps: the first step reports an error
and moves no counter, the later ones decode the input they are given. -/
def zstdErrFirst : ZstdCodec Nat where
  ZSTD_isError := zstdIsError
  ZSTD_createCStream := 0
  ZSTD_initCStream := fun s => (0, s)
  ZSTD_compressStream2 := fun s _ _ _ =>
    { err := zstdErrorCode, consumed := 0, produced := [], state := s }
  ZSTD_freeCStream := fun s => (0, s)
  ZSTD_createDStream := 0
  ZSTD_initDStream := fun s => (0, s)
  ZSTD_decompressStream := fun s room inp =>
    if s = 0 then { err := zstdErrorCode, consumed := 0, produced := [], state := s + 1 }
    else { err := 0, consumed := inp.length, produced := inp.take room, state := s + 1 }
  ZSTD_freeDStream := fun s => (0, s)

/-- A zstd whose decode step number n (from 0) fills the whole room with the
byte 7 and takes one input byte when n is 0, and reports an error afterwards. -/
def zstdFillThenErr : ZstdCodec Nat :=
  { zstdErrFirst with
    ZSTD_decompressStream := fun s room _ =>
      if s = 0 then { err := 1, consumed := 1, produced := List.replicate room 7, state := s + 1 }
      else { err := zstdErrorCode, consumed := 0, produced := [], state := s + 1 } }

/-- The locals of zstd_compress right after the continue step took a chunk of
1031 bytes that is not the last one: the session holds them all. -/
def heldState : ZstdState (List Byte) :=
  { pStream := List.replicate 1031 7, inBuffer := [], outbuf := [], output := emptyBuf,
    err := 1031, calls := 1 }

/-- The locals after one flush step from heldState: the scratch block is full
and the session still holds 7 bytes. -/
def heldStateFlushed : ZstdState (List Byte) :=
  { pStream := List.replicate 7 7, inBuffer := [], outbuf := List.replicate 1024 7,
    output := emptyBuf, err := 7, calls := 2 }

/-- The buffer sb still starts with the slices pre: nothing below the
snapshot has been touched. -/
def Ext (pre : List grpc_slice) (sb : grpc_slice_buffer) : Prop :=
  ∃ x, sb.slices = pre ++ x

/-! ## Buffer lemmas -/

theorem Ext.refl (sb : grpc_slice_buffer) : Ext sb.slices sb := ⟨[], by simp⟩

theorem Ext.add_indexed {pre : List grpc_slice} {sb : grpc_slice_buffer}
    (h : Ext pre sb) (s : grpc_slice) : Ext pre (grpc_slice_buffer_add_indexed sb s) := by
  obtain ⟨x, hx⟩ := h
  exact ⟨x ++ [s], by simp [grpc_slice_buffer_add_indexed, hx]⟩

theorem restore_of_ext {pre : List grpc_slice} {sb : grpc_slice_buffer} (lb : Nat)
    (h : Ext pre sb) : restore sb pre.length lb = { slices := pre, length := lb } := by
  obtain ⟨x, hx⟩ := h
  simp [restore, hx]

theorem Ext.restore {pre : List grpc_slice} {sb : grpc_slice_buffer} (lb : Nat)
    (h : Ext pre sb) : Ext pre (restore sb pre.length lb) := by
  rw [restore_of_ext lb h]
  exact ⟨[], by simp⟩

theorem Ext.count_le {pre : List grpc_slice} {sb : grpc_slice_buffer}
    (h : Ext pre sb) : pre.length ≤ sb.count := by
  obtain ⟨x, hx⟩ := h
  simp [grpc_slice_buffer.count, hx]

/-! ## zlib: the output buffer only grows -/

theorem zlib_rotate_ext {σ : Type} {pre : List grpc_slice} (st : BodyState σ)
    (h : Ext pre st.output) : Ext pre (zlib_rotate st).output := by
  unfold zlib_rotate
  split
  · exact h.add_indexed _
  · exact h

theorem zlib_step_output {σ : Type} (flate : Flate σ) (flush : Int) (st : BodyState σ) :
    (zlib_step flate flush st).output = st.output := rfl

theorem zlib_body_inner_ext {σ : Type} (flate : Flate σ) (flush : Int)
    (pre : List grpc_slice) :
    ∀ (fuel : Nat) (st : BodyState σ) (b : Bool) (st' : BodyState σ),
      zlib_body_inner flate flush fuel st = some (b, st') → Ext pre st.output →
      Ext pre st'.output := by
  intro fuel
  induction fuel with
  | zero => intro st b st' h _; simp [zlib_body_inner] at h
  | succ n ih =>
    intro st b st' h hE
    have hE2 : Ext pre (zlib_step flate flush (zlib_rotate st)).output := by
      rw [zlib_step_output]; exact zlib_rotate_ext st hE
    simp only [zlib_body_inner] at h
    split at h
    · simp only [Option.some.injEq, Prod.mk.injEq] at h
      rw [← h.2]; exact hE2
    · split at h
      · exact ih _ _ _ h hE2
      · simp only [Option.some.injEq, Prod.mk.injEq] at h
        rw [← h.2]; exact hE2

theorem zlib_body_loop_ext {σ : Type} (flate : Flate σ) (fuel : Nat)
    (pre : List grpc_slice) :
    ∀ (l : List grpc_slice) (flush : Int) (st : BodyState σ) (b : Bool) (st' : BodyState σ),
      zlib_body_loop flate fuel l flush st = some (b, st') → Ext pre st.output →
      Ext pre st'.output := by
  intro l
  induction l with
  | nil =>
    intro flush st b st' h hE
    simp only [zlib_body_loop, Option.some.injEq, Prod.mk.injEq] at h
    rw [← h.2]; exact hE
  | cons s rest ih =>
    intro flush st b st' h hE
    simp only [zlib_body_loop] at h
    split at h
    · simp at h
    · split at h
      · simp at h
      · rename_i st2 heq
        simp only [Option.some.injEq, Prod.mk.injEq] at h
        rw [← h.2]
        exact zlib_body_inner_ext flate _ pre fuel _ _ _ heq hE
      · rename_i st2 heq
        have hE2 := zlib_body_inner_ext flate _ pre fuel _ _ _ heq hE
        split at h
        · simp only [Option.some.injEq, Prod.mk.injEq] at h
          rw [← h.2]; exact hE2
        · exact ih _ _ _ _ h hE2

theorem zlib_body_ext {σ : Type} (flate : Flate σ) (fuel : Nat) (zs : σ)
    (input output : grpc_slice_buffer) (r : Int) (st : BodyState σ)
    (h : zlib_body flate fuel zs input output = some (r, st)) :
    Ext output.slices st.output ∧ (r = 0 ∨ r = 1) := by
  unfold zlib_body at h
  simp only at h
  split at h
  · simp at h
  · rename_i st1 heq
    simp only [Option.some.injEq, Prod.mk.injEq] at h
    have := zlib_body_loop_ext flate fuel output.slices _ _ _ _ _ heq (Ext.refl output)
    rw [← h.2, ← h.1]; exact ⟨this, Or.inl rfl⟩
  · rename_i st1 heq
    have := zlib_body_loop_ext flate fuel output.slices _ _ _ _ _ heq (Ext.refl output)
    split at h
    · simp only [Option.some.injEq, Prod.mk.injEq] at h
      rw [← h.2, ← h.1]; exact ⟨this, Or.inl rfl⟩
    · simp only [Option.some.injEq, Prod.mk.injEq] at h
      rw [← h.2, ← h.1]; exact ⟨this.add_indexed _, Or.inr rfl⟩

theorem zlib_compress_fail {σ : Type} (c : ZlibCodec σ) (fuel : Nat)
    (input output : grpc_slice_buffer) (gzip : Bool) (o : Outcome)
    (h : zlib_compress c fuel input output gzip = some o) (h0 : o.ret = 0) :
    o.output = output := by
  unfold zlib_compress at h
  dsimp only at h
  split at h
  · simp at h
  · rename_i b st heq
    have hE := (zlib_body_ext _ _ _ _ _ _ _ heq).1
    by_cases hc : b ≠ 0 ∧ st.output.length < input.length
    · rw [if_pos hc] at h
      simp only [one_ne_zero, if_false, Option.some.injEq] at h
      rw [← h] at h0
      simp at h0
    · rw [if_neg hc] at h
      simp only [if_true, Option.some.injEq] at h
      rw [← h]
      exact restore_of_ext _ hE

theorem zlib_decompress_fail {σ : Type} (c : ZlibCodec σ) (fuel : Nat)
    (input output : grpc_slice_buffer) (gzip : Bool) (o : Outcome)
    (h : zlib_decompress c fuel input output gzip = some o) (h0 : o.ret = 0) :
    o.output = output := by
  unfold zlib_decompress at h
  simp only at h
  split at h
  · simp at h
  · rename_i r st heq
    have hE := (zlib_body_ext _ _ _ _ _ _ _ heq).1
    split at h
    · simp only [Option.some.injEq] at h
      rw [← h]
      exact restore_of_ext _ hE
    · rename_i hr
      simp only [Option.some.injEq] at h
      rw [← h] at h0
      exact absurd h0 hr

/-! ## zstd: the output buffer only grows, and every error exit restores it -/

theorem zstd_rotate_ext {σ : Type} {pre : List grpc_slice} (st : ZstdState σ)
    (h : Ext pre st.output) : Ext pre (zstd_rotate st).output := by
  unfold zstd_rotate
  split
  · exact h.add_indexed _
  · exact h

theorem zstd_cstep_output {σ : Type} (c : ZstdCodec σ) (d : ZSTD_EndDirective)
    (st : ZstdState σ) : (zstd_cstep c d st).output = st.output := rfl

theorem zstd_dstep_output {σ : Type} (c : ZstdCodec σ) (st : ZstdState σ) :
    (zstd_dstep c st).output = st.output := rfl

theorem zstd_cfail_output {σ : Type} (c : ZstdCodec σ) (pre : List grpc_slice) (lb : Nat)
    (st : ZstdState σ) (h : Ext pre st.output) :
    (zstd_cfail c pre.length lb st).output = { slices := pre, length := lb } :=
  restore_of_ext lb h

theorem zstd_dfail_output {σ : Type} (c : ZstdCodec σ) (pre : List grpc_slice) (lb : Nat)
    (st : ZstdState σ) (h : Ext pre st.output) :
    (zstd_dfail c pre.length lb st).output = { slices := pre, length := lb } :=
  restore_of_ext lb h

theorem ext_mk (pre : List grpc_slice) (lb : Nat) :
    Ext pre { slices := pre, length := lb } := ⟨[], by simp⟩

theorem zstd_compress_finish_ext {σ : Type} (c : ZstdCodec σ) (pre : List grpc_slice)
    (lb : Nat) (lastChunk : Bool) :
    ∀ (fuel : Nat) (st : ZstdState σ) (b : Bool) (st' : ZstdState σ),
      zstd_compress_finish c pre.length lb lastChunk fuel st = some (b, st') →
      Ext pre st.output →
      Ext pre st'.output ∧ (b = false → st'.output = { slices := pre, length := lb }) := by
  intro fuel
  induction fuel with
  | zero => intro st b st' h _; simp [zstd_compress_finish] at h
  | succ n ih =>
    intro st b st' h hE
    have hE2 : Ext pre (zstd_cstep c (zstd_directive lastChunk) (zstd_rotate st)).output := by
      rw [zstd_cstep_output]; exact zstd_rotate_ext st hE
    simp only [zstd_compress_finish] at h
    split at h
    · simp only [Option.some.injEq, Prod.mk.injEq] at h
      rw [← h.2, zstd_cfail_output c pre lb _ hE2]
      exact ⟨ext_mk pre lb, fun _ => rfl⟩
    · split at h <;> split at h
      all_goals first
        | exact ih _ _ _ h hE2
        | (simp only [Option.some.injEq, Prod.mk.injEq] at h
           rw [← h.2, ← h.1]
           exact ⟨hE2, fun hb => by simp at hb⟩)

theorem zstd_compress_loop_ext {σ : Type} (c : ZstdCodec σ) (pre : List grpc_slice)
    (lb : Nat) (fuel : Nat) :
    ∀ (l : List grpc_slice) (st : ZstdState σ) (b : Bool) (st' : ZstdState σ),
      zstd_compress_loop c pre.length lb fuel l st = some (b, st') →
      Ext pre st.output →
      Ext pre st'.output ∧ (b = false → st'.output = { slices := pre, length := lb }) := by
  intro l
  induction l with
  | nil =>
    intro st b st' h hE
    simp only [zstd_compress_loop, Option.some.injEq, Prod.mk.injEq] at h
    rw [← h.2, ← h.1]
    exact ⟨hE, fun hb => by simp at hb⟩
  | cons s rest ih =>
    intro st b st' h hE
    simp only [zstd_compress_loop] at h
    split at h
    · simp at h
    · have hE1 : Ext pre (zstd_cstep c ZSTD_EndDirective.ZSTD_e_continue
          { st with inBuffer := s.bytes }).output := by
        rw [zstd_cstep_output]; exact hE
      split at h
      · simp only [Option.some.injEq, Prod.mk.injEq] at h
        rw [← h.2, zstd_cfail_output c pre lb _ hE1]
        exact ⟨ext_mk pre lb, fun _ => rfl⟩
      · split at h
        · simp at h
        · rename_i st2 heq
          simp only [Option.some.injEq, Prod.mk.injEq] at h
          have := zstd_compress_finish_ext c pre lb _ fuel _ _ _ heq hE1
          rw [← h.2]
          exact ⟨this.1, fun _ => this.2 rfl⟩
        · rename_i st2 heq
          have hE2 := (zstd_compress_finish_ext c pre lb _ fuel _ _ _ heq hE1).1
          split at h
          · simp only [Option.some.injEq, Prod.mk.injEq] at h
            rw [← h.2, zstd_cfail_output c pre lb _ hE2]
            exact ⟨ext_mk pre lb, fun _ => rfl⟩
          · exact ih _ _ _ h hE2

theorem zstd_compress_fail {σ : Type} (c : ZstdCodec σ) (fuel : Nat)
    (input output : grpc_slice_buffer) (o : Outcome)
    (h : zstd_compress c fuel input output = some o) (h0 : o.ret = 0) :
    o.output = output := by
  unfold zstd_compress at h
  dsimp only at h
  split at h
  · simp only [Option.some.injEq] at h
    rw [← h]
    exact restore_of_ext _ (Ext.refl output)
  · split at h
    · simp at h
    · rename_i st heq
      simp only [Option.some.injEq] at h
      have := (zstd_compress_loop_ext c output.slices output.length fuel _ _ _ _ heq
        (Ext.refl output)).2 rfl
      rw [← h]; exact this
    · rename_i st heq
      have hE := (zstd_compress_loop_ext c output.slices output.length fuel _ _ _ _ heq
        (Ext.refl output)).1
      split at h
      · simp only [Option.some.injEq] at h
        rw [← h]
        exact restore_of_ext _ hE
      · split at h
        · simp only [Option.some.injEq] at h
          rw [← h]
          exact restore_of_ext _ (hE.add_indexed _)
        · simp only [Option.some.injEq] at h
          rw [← h] at h0
          simp at h0

theorem zstd_decompress_inner_ext {σ : Type} (c : ZstdCodec σ) (pre : List grpc_slice)
    (lb : Nat) :
    ∀ (fuel : Nat) (st st' : ZstdState σ),
      zstd_decompress_inner c pre.length lb fuel st = some st' →
      Ext pre st.output → Ext pre st'.output := by
  intro fuel
  induction fuel with
  | zero => intro st st' h _; simp [zstd_decompress_inner] at h
  | succ n ih =>
    intro st st' h hE
    have hE2 : Ext pre (zstd_dstep c (zstd_rotate st)).output := by
      rw [zstd_dstep_output]; exact zstd_rotate_ext st hE
    simp only [zstd_decompress_inner] at h
    split at h
    · have hE3 : Ext pre (zstd_dfail c pre.length lb (zstd_dstep c (zstd_rotate st))).output := by
        rw [zstd_dfail_output c pre lb _ hE2]; exact ext_mk pre lb
      split at h
      · simp only [Option.some.injEq] at h
        rw [← h]; exact hE3
      · exact ih _ _ h hE3
    · split at h
      · simp only [Option.some.injEq] at h
        rw [← h]; exact hE2
      · exact ih _ _ h hE2

theorem zstd_decompress_loop_ext {σ : Type} (c : ZstdCodec σ) (pre : List grpc_slice)
    (lb : Nat) (fuel : Nat) :
    ∀ (l : List grpc_slice) (st : ZstdState σ) (b : Bool) (st' : ZstdState σ),
      zstd_decompress_loop c pre.length lb fuel l st = some (b, st') →
      Ext pre st.output →
      Ext pre st'.output ∧ (b = false → st'.output = { slices := pre, length := lb }) := by
  intro l
  induction l with
  | nil =>
    intro st b st' h hE
    simp only [zstd_decompress_loop, Option.some.injEq, Prod.mk.injEq] at h
    rw [← h.2, ← h.1]
    exact ⟨hE, fun hb => by simp at hb⟩
  | cons s rest ih =>
    intro st b st' h hE
    simp only [zstd_decompress_loop] at h
    split at h
    · simp at h
    · split at h
      · simp at h
      · rename_i st2 heq
        have hE2 := zstd_decompress_inner_ext c pre lb fuel _ _ heq hE
        split at h
        · simp only [Option.some.injEq, Prod.mk.injEq] at h
          rw [← h.2, zstd_dfail_output c pre lb _ hE2]
          exact ⟨ext_mk pre lb, fun _ => rfl⟩
        · exact ih _ _ _ h hE2

theorem zstd_decompress_fail {σ : Type} (c : ZstdCodec σ) (fuel : Nat)
    (input output : grpc_slice_buffer) (o : Outcome)
    (h : zstd_decompress c fuel input output = some o) (h0 : o.ret = 0) :
    o.output = output := by
  unfold zstd_decompress at h
  dsimp only at h
  split at h
  · simp only [Option.some.injEq] at h
    rw [← h]
    exact restore_of_ext _ (Ext.refl output)
  · split at h
    · simp at h
    · rename_i st heq
      simp only [Option.some.injEq] at h
      have := (zstd_decompress_loop_ext c output.slices output.length fuel _ _ _ _ heq
        (Ext.refl output)).2 rfl
      rw [← h]; exact this
    · rename_i st heq
      have hE := (zstd_decompress_loop_ext c output.slices output.length fuel _ _ _ _ heq
        (Ext.refl output)).1
      split at h
      · simp only [Option.some.injEq] at h
        rw [← h]
        exact restore_of_ext _ (hE.add_indexed _)
      · simp only [Option.some.injEq] at h
        rw [← h] at h0
        simp at h0

/-! ## The verbatim copy -/

theorem bytes_add (sb : grpc_slice_buffer) (s : grpc_slice) :
    (grpc_slice_buffer_add sb s).bytes = sb.bytes ++ s.bytes := by
  obtain ⟨l, n⟩ := sb
  simp only [grpc_slice_buffer_add, grpc_slice_buffer.bytes]
  induction l with
  | nil => simp
  | cons a t ih => simp [ih]

theorem foldl_add_bytes (l : List grpc_slice) :
    ∀ sb : grpc_slice_buffer,
      (l.foldl grpc_slice_buffer_add sb).bytes
        = sb.bytes ++ grpc_slice_buffer.bytes { slices := l, length := 0 } := by
  induction l with
  | nil => intro sb; simp [grpc_slice_buffer.bytes]
  | cons a t ih =>
    intro sb
    rw [List.foldl_cons, ih, bytes_add]
    simp [grpc_slice_buffer.bytes]

theorem foldl_add_length (l : List grpc_slice) :
    ∀ sb : grpc_slice_buffer,
      (l.foldl grpc_slice_buffer_add sb).length
        = sb.length + (grpc_slice_buffer.bytes { slices := l, length := 0 }).length := by
  induction l with
  | nil => intro sb; simp [grpc_slice_buffer.bytes]
  | cons a t ih =>
    intro sb
    rw [List.foldl_cons, ih]
    simp [grpc_slice_buffer.bytes, grpc_slice_buffer_add, GRPC_SLICE_LENGTH, Nat.add_assoc]

theorem copy_bytes (input output : grpc_slice_buffer) :
    (copy input output).2.bytes = output.bytes ++ input.bytes :=
  foldl_add_bytes input.slices output

theorem copy_length (input output : grpc_slice_buffer) :
    (copy input output).2.length = output.length + input.bytes.length :=
  foldl_add_length input.slices output

theorem compress_inner_fail {σ τ : Type} (zl : ZlibCodec σ) (zs : ZstdCodec τ) (fuel : Nat)
    (algorithm : grpc_compression_algorithm) (input output : grpc_slice_buffer)
    (o : Outcome) (h : compress_inner zl zs fuel algorithm input output = some o)
    (h0 : o.ret = 0) : o.output = output := by
  cases algorithm <;> simp only [compress_inner] at h
  · simp only [Option.some.injEq] at h; rw [← h]
  · exact zlib_compress_fail zl fuel input output false o h h0
  · exact zlib_compress_fail zl fuel input output true o h h0
  · exact zstd_compress_fail zs fuel input output o h h0
  · simp only [Option.some.injEq] at h; rw [← h]

theorem decompress_fail {σ τ : Type} (zl : ZlibCodec σ) (zs : ZstdCodec τ) (fuel : Nat)
    (algorithm : grpc_compression_algorithm) (input output : grpc_slice_buffer)
    (o : Outcome) (h : grpc_msg_decompress zl zs fuel algorithm input output = some o)
    (h0 : o.ret = 0) : o.output = output := by
  cases algorithm <;> simp only [grpc_msg_decompress] at h
  · simp only [Option.some.injEq] at h
    rw [← h] at h0
    simp [copy] at h0
  · exact zlib_decompress_fail zl fuel input output false o h h0
  · exact zlib_decompress_fail zl fuel input output true o h h0
  · exact zstd_decompress_fail zs fuel input output o h h0
  · simp only [Option.some.injEq] at h; rw [← h]

/-! ## What the accepted paths guarantee -/

theorem zlib_body_success {σ : Type} (flate : Flate σ) (fuel : Nat) (zs : σ)
    (input output : grpc_slice_buffer) (r : Int) (st : BodyState σ)
    (h : zlib_body flate fuel zs input output = some (r, st)) (hr : r ≠ 0) :
    st.r = Z_STREAM_END := by
  unfold zlib_body at h
  simp only at h
  split at h
  · simp at h
  · simp only [Option.some.injEq, Prod.mk.injEq] at h
    exact absurd h.1.symm hr
  · split at h
    · simp only [Option.some.injEq, Prod.mk.injEq] at h
      exact absurd h.1.symm hr
    · rename_i hne
      simp only [Option.some.injEq, Prod.mk.injEq] at h
      rw [← h.2]
      exact not_not.mp hne

theorem zlib_compress_success {σ : Type} (c : ZlibCodec σ) (fuel : Nat)
    (input output : grpc_slice_buffer) (gzip : Bool) (o : Outcome)
    (h : zlib_compress c fuel input output gzip = some o) (h1 : o.ret ≠ 0) :
    o.output.length < input.length := by
  unfold zlib_compress at h
  dsimp only at h
  split at h
  · simp at h
  · rename_i b st heq
    by_cases hc : b ≠ 0 ∧ st.output.length < input.length
    · rw [if_pos hc] at h
      simp only [one_ne_zero, if_false, Option.some.injEq] at h
      rw [← h]
      exact hc.2
    · rw [if_neg hc] at h
      simp only [if_true, Option.some.injEq] at h
      rw [← h] at h1
      simp at h1

theorem zstd_compress_success {σ : Type} (c : ZstdCodec σ) (fuel : Nat)
    (input output : grpc_slice_buffer) (o : Outcome)
    (h : zstd_compress c fuel input output = some o) (h1 : o.ret ≠ 0) :
    o.output.length ≤ input.length := by
  unfold zstd_compress at h
  dsimp only at h
  split at h
  · simp only [Option.some.injEq] at h
    rw [← h] at h1; simp at h1
  · split at h
    · simp at h
    · simp only [Option.some.injEq] at h
      rw [← h] at h1; simp at h1
    · split at h
      · simp only [Option.some.injEq] at h
        rw [← h] at h1; simp at h1
      · split at h
        · simp only [Option.some.injEq] at h
          rw [← h] at h1; simp at h1
        · rename_i hle
          simp only [Option.some.injEq] at h
          rw [← h]
          exact Nat.le_of_not_lt hle

/-! ## Claims -/

/-- C1: whenever grpc_msg_compress returns 0 (for every algorithm, so for
DEFLATE, GZIP and ZSTD, every input, every initial output, every codec
behaviour and every fuel), the output buffer holds its bytes from before the
call followed by the input bytes, and its length is length_before plus the
input length: what the failed attempt appended was rolled back before the copy. -/
theorem C1_failed_compress_is_rollback_then_copy {σ τ : Type} (zl : ZlibCodec σ)
    (zs : ZstdCodec τ) (fuel : Nat) (algorithm : grpc_compression_algorithm)
    (input output : grpc_slice_buffer) (o : Outcome) (hwf : input.WF)
    (h : grpc_msg_compress zl zs fuel algorithm input output = some o)
    (h0 : o.ret = 0) :
    o.output.bytes = output.bytes ++ input.bytes ∧
      o.output.length = output.length + input.length := by
  unfold grpc_msg_compress at h
  split at h
  · simp at h
  · rename_i oi heq
    split at h
    · rename_i hr
      have hout := compress_inner_fail zl zs fuel algorithm input output oi heq hr
      simp only [Option.some.injEq] at h
      rw [← h, hout]
      exact ⟨copy_bytes input output, by rw [copy_length, hwf]⟩
    · simp only [Option.some.injEq] at h
      rw [← h] at h0
      simp at h0

/-- C1 at a concrete input: a stored deflate stream of the chunk 1, 2, 3 is
not smaller than the input, the chunk appended after the chunk 9 is rolled
back, and the input is copied. -/
theorem C1_failed_compress_is_rollback_then_copy_witness :
    buf123.WF ∧
    grpc_msg_compress zlibStored zstdStored 3 GRPC_COMPRESS_DEFLATE buf123 buf9
      = some { ret := 0
               output := { slices := [{ bytes := [9] }, { bytes := [1, 2, 3] }], length := 4 }
               calls := 1 } ∧
    grpc_slice_buffer.bytes
        { slices := [{ bytes := [9] }, { bytes := [1, 2, 3] }], length := 4 }
      = buf9.bytes ++ buf123.bytes ∧
    (4 : Nat) = buf9.length + buf123.length :=
  ⟨by decide, by decide,
   C1_failed_compress_is_rollback_then_copy zlibStored zstdStored 3 GRPC_COMPRESS_DEFLATE
     buf123 buf9
     { ret := 0
       output := { slices := [{ bytes := [9] }, { bytes := [1, 2, 3] }], length := 4 }
       calls := 1 }
     (by decide) (by decide) (by decide)⟩

/-- C2: for algorithm NONE and every input buffer, grpc_msg_compress returns
0 and makes no codec step; starting from an empty output buffer, the output
bytes are the input chunks concatenated and the output length is their total
length. -/
theorem C2_none_compress_copies {σ τ : Type} (zl : ZlibCodec σ) (zs : ZstdCodec τ)
    (fuel : Nat) (input : grpc_slice_buffer) :
    ∃ o, grpc_msg_compress zl zs fuel GRPC_COMPRESS_NONE input emptyBuf = some o ∧
      o.ret = 0 ∧ o.calls = 0 ∧ o.output.bytes = input.bytes ∧
      o.output.length = input.bytes.length := by
  refine ⟨{ ret := 0, output := (copy input emptyBuf).2, calls := 0 }, ?_, rfl, rfl, ?_, ?_⟩
  · simp [grpc_msg_compress, compress_inner]
  · rw [copy_bytes]; simp [emptyBuf, grpc_slice_buffer.bytes]
  · rw [copy_length]; simp [emptyBuf]

/-- C4: whenever grpc_msg_decompress returns 0 (for NONE, DEFLATE, GZIP, ZSTD
and the ALGORITHMS_COUNT sentinel, every input, every codec behaviour and
every fuel), the chunk count and the byte length of the output buffer are
those from before the call. -/
theorem C4_failed_decompress_restores_output {σ τ : Type} (zl : ZlibCodec σ)
    (zs : ZstdCodec τ) (fuel : Nat) (algorithm : grpc_compression_algorithm)
    (input output : grpc_slice_buffer) (o : Outcome)
    (h : grpc_msg_decompress zl zs fuel algorithm input output = some o)
    (h0 : o.ret = 0) :
    o.output.count = output.count ∧ o.output.length = output.length := by
  rw [decompress_fail zl zs fuel algorithm input output o h h0]
  exact ⟨rfl, rfl⟩

set_option maxRecDepth 100000 in
/-- C4 at a concrete input: the first zstd step fills a whole scratch block,
which is appended after the chunk 9, the next step reports an error, and the
call returns 0 with the output back to the single chunk 9. -/
theorem C4_failed_decompress_restores_output_witness :
    grpc_msg_decompress zlibStored zstdFillThenErr 3 GRPC_COMPRESS_ZSTD buf1_2 buf9
      = some { ret := 0, output := buf9, calls := 3 } ∧
    (1 : Nat) = buf9.count ∧ (1 : Nat) = buf9.length :=
  ⟨by decide,
   C4_failed_decompress_restores_output zlibStored zstdFillThenErr 3 GRPC_COMPRESS_ZSTD
     buf1_2 buf9 { ret := 0, output := buf9, calls := 3 } (by decide) (by decide)⟩

/-- C9: for algorithm NONE, every input and every initial output buffer,
grpc_msg_decompress returns 1, and the output afterwards holds its bytes from
before the call followed by the input bytes, with length length_before plus
the input length. -/
theorem C9_none_decompress_copies {σ τ : Type} (zl : ZlibCodec σ) (zs : ZstdCodec τ)
    (fuel : Nat) (input output : grpc_slice_buffer) (hwf : input.WF) :
    ∃ o, grpc_msg_decompress zl zs fuel GRPC_COMPRESS_NONE input output = some o ∧
      o.ret = 1 ∧ o.output.bytes = output.bytes ++ input.bytes ∧
      o.output.length = output.length + input.length := by
  refine ⟨{ ret := 1, output := (copy input output).2, calls := 0 }, ?_, rfl, ?_, ?_⟩
  · simp [grpc_msg_decompress, copy]
  · exact copy_bytes input output
  · show (copy input output).2.length = output.length + input.length
    rw [copy_length, hwf]

/-- C9 at a concrete input: copying the chunk 1, 2, 3 after the chunk 9. -/
theorem C9_none_decompress_copies_witness :
    buf123.WF ∧
    ∃ o, grpc_msg_decompress zlibStored zstdStored 0 GRPC_COMPRESS_NONE buf123 buf9 = some o ∧
      o.ret = 1 ∧ o.output.bytes = buf9.bytes ++ buf123.bytes ∧
      o.output.length = buf9.length + buf123.length :=
  ⟨by decide, C9_none_decompress_copies zlibStored zstdStored 0 buf123 buf9 (by decide)⟩

/-- C3 (evaluation): zstd_compress accepts a result exactly as long as the
input.  The stored zstd stream of the chunk 1, 2, 3 has 3 bytes: for ZSTD the
call returns 1 with 3 bytes appended, for DEFLATE a stored stream of the same
length is rejected (return 0, verbatim copy). -/
theorem C3_zstd_accepts_equal_length :
    grpc_msg_compress zlibStored zstdStored 3 GRPC_COMPRESS_ZSTD buf123 emptyBuf
      = some { ret := 1, output := buf123, calls := 2 } ∧
    buf123.length - emptyBuf.length = buf123.length ∧
    grpc_msg_compress zlibStored zstdStored 3 GRPC_COMPRESS_DEFLATE buf123 emptyBuf
      = some { ret := 0, output := buf123, calls := 1 } := by
  decide

/-- C5 (evaluation): in zstd_decompress an error reported by a decode step
does not end the attempt.  On an empty chunk followed by the chunk 5, the
first step reports an error; the call goes on, makes a second step, appends
the chunk it decoded and returns 1. -/
theorem C5_zstd_decompress_continues_after_error :
    zstdErrFirst.ZSTD_isError
      (zstdErrFirst.ZSTD_decompressStream zstdErrFirst.ZSTD_createDStream
        OUTPUT_BLOCK_SIZE []).err = true ∧
    grpc_msg_decompress zlibStored zstdErrFirst 1 GRPC_COMPRESS_ZSTD bufE_5 emptyBuf
      = some { ret := 1, output := { slices := [{ bytes := [5] }], length := 1 },
               calls := 2 } := by
  decide

/-- C6 (evaluation): zstd_decompress accepts a truncated frame.  The only
decode step takes the whole chunk 1, 2, 3 and returns 3 (bytes still
expected), which is neither an error nor 0; the call returns 1 with the
partial output. -/
theorem C6_zstd_decompress_accepts_truncated :
    (zstdTruncated.ZSTD_decompressStream zstdTruncated.ZSTD_createDStream
      OUTPUT_BLOCK_SIZE [1, 2, 3]).err = 3 ∧
    zstdTruncated.ZSTD_isError 3 = false ∧
    grpc_msg_decompress zlibStored zstdTruncated 1 GRPC_COMPRESS_ZSTD buf123 emptyBuf
      = some { ret := 1, output := buf123, calls := 1 } := by
  decide

/-- C8 as stated fails: on an input with zero chunks the DEFLATE decompress
returns 1 without a codec step, but the output buffer, empty before the call,
holds one chunk afterwards. -/
theorem C8_empty_input_grows_chunk_count :
    grpc_msg_decompress zlibStored zstdStored 0 GRPC_COMPRESS_DEFLATE emptyBuf emptyBuf
      = some { ret := 1, output := { slices := [{ bytes := [] }], length := 0 },
               calls := 0 } ∧
    grpc_slice_buffer.count { slices := [{ bytes := [] }], length := 0 } = 1 ∧
    emptyBuf.count = 0 := by
  decide

/-- C8 amended: for an input buffer with zero chunks and every algorithm in
DEFLATE, GZIP, ZSTD (for ZSTD provided the session is set up and released
without an error), grpc_msg_decompress returns 1 whatever the fuel, makes no
codec transform step, and appends exactly one chunk of length zero: the chunk
count grows by one and the byte length is unchanged. -/
theorem C8_empty_input_appends_one_empty_chunk {σ τ : Type} (zl : ZlibCodec σ)
    (zs : ZstdCodec τ) (fuel : Nat) (algorithm : grpc_compression_algorithm)
    (input output : grpc_slice_buffer)
    (hA : algorithm = GRPC_COMPRESS_DEFLATE ∨ algorithm = GRPC_COMPRESS_GZIP ∨
      algorithm = GRPC_COMPRESS_ZSTD)
    (hin : input.count = 0)
    (hz : algorithm = GRPC_COMPRESS_ZSTD →
      zs.ZSTD_isError (zs.ZSTD_initDStream zs.ZSTD_createDStream).1 = false ∧
      zs.ZSTD_isError
        (zs.ZSTD_freeDStream (zs.ZSTD_initDStream zs.ZSTD_createDStream).2).1 = false) :
    ∃ o, grpc_msg_decompress zl zs fuel algorithm input output = some o ∧
      o.ret = 1 ∧ o.calls = 0 ∧
      o.output.slices = output.slices ++ [{ bytes := [] }] ∧
      o.output.count = output.count + 1 ∧
      o.output.length = output.length := by
  have hs : input.slices = [] := List.length_eq_zero.mp hin
  refine ⟨{ ret := 1, output := grpc_slice_buffer_add_indexed output { bytes := [] },
            calls := 0 }, ?_, rfl, rfl, rfl, ?_, ?_⟩
  · rcases hA with rfl | rfl | rfl
    · simp [grpc_msg_decompress, zlib_decompress, zlib_body, zlib_body_loop, hs,
        Z_STREAM_END]
    · simp [grpc_msg_decompress, zlib_decompress, zlib_body, zlib_body_loop, hs,
        Z_STREAM_END]
    · obtain ⟨h1, h2⟩ := hz rfl
      simp [grpc_msg_decompress, zstd_decompress, zstd_decompress_loop, hs, h1, h2]
  · simp [grpc_slice_buffer_add_indexed, grpc_slice_buffer.count]
  · simp [grpc_slice_buffer_add_indexed, GRPC_SLICE_LENGTH]

/-- C8 amended, at a concrete input: ZSTD on zero chunks with the chunk 9
already in the output. -/
theorem C8_empty_input_appends_one_empty_chunk_witness :
    emptyBuf.count = 0 ∧
    ∃ o, grpc_msg_decompress zlibStored zstdStored 0 GRPC_COMPRESS_ZSTD emptyBuf buf9 = some o ∧
      o.ret = 1 ∧ o.calls = 0 ∧
      o.output.slices = buf9.slices ++ [{ bytes := [] }] ∧
      o.output.count = buf9.count + 1 ∧
      o.output.length = buf9.length :=
  ⟨by decide,
   C8_empty_input_appends_one_empty_chunk zlibStored zstdStored 0 GRPC_COMPRESS_ZSTD
     emptyBuf buf9 (Or.inr (Or.inr rfl)) (by decide) (fun _ => by decide)⟩

set_option maxRecDepth 100000 in
/-- C10 as stated fails for a chunk that is not the last: after the continue
step took a chunk of 1031 bytes, the first flush step fills the scratch block
and returns 7 (seven bytes still held in the session), and the flush loop
exits there, since the input of the chunk is consumed. -/
theorem C10_flush_loop_exits_with_bytes_held :
    heldState = zstd_cstep zstdStored ZSTD_EndDirective.ZSTD_e_continue
      { pStream := [], inBuffer := List.replicate 1031 7, outbuf := [], output := emptyBuf,
        err := 0, calls := 0 } ∧
    zstd_compress_finish zstdStored 0 0 false 2 heldState = some (true, heldStateFlushed) ∧
    heldStateFlushed = zstd_cstep zstdStored ZSTD_EndDirective.ZSTD_e_flush heldState ∧
    heldStateFlushed.err = 7 := by
  decide

/-- C10 amended: when the loop after the continue step of zstd_compress exits
without an error, it does so right after a step with its directive (flush for
a chunk that is not the last, end for the last) that reported no error; for a
chunk that is not the last that step left the input of the chunk fully
consumed (whatever it returned), for the last chunk it returned 0. -/
theorem C10_finish_loop_exit_condition {σ : Type} (c : ZstdCodec σ)
    (count_before length_before : Nat) (lastChunk : Bool) (fuel : Nat)
    (st st' : ZstdState σ)
    (h : zstd_compress_finish c count_before length_before lastChunk fuel st
      = some (true, st')) :
    ∃ stp, st' = zstd_cstep c (zstd_directive lastChunk) stp ∧
      c.ZSTD_isError st'.err = false ∧
      (lastChunk = false → st'.inBuffer = []) ∧
      (lastChunk = true → st'.err = 0) := by
  induction fuel generalizing st with
  | zero => simp [zstd_compress_finish] at h
  | succ n ih =>
    simp only [zstd_compress_finish] at h
    split at h
    · simp at h
    · rename_i hne
      cases lastChunk
      · simp only [Bool.false_eq_true, if_false] at h
        split at h
        · rename_i hfin
          simp only [Option.some.injEq, Prod.mk.injEq, true_and] at h
          refine ⟨zstd_rotate st, h.symm, ?_, ?_, ?_⟩
          · rw [← h]; simpa using hne
          · intro _; rw [← h]; exact List.isEmpty_iff.mp hfin
          · intro hc; simp at hc
        · exact ih _ h
      · simp only [if_true] at h
        split at h
        · rename_i hfin
          simp only [Option.some.injEq, Prod.mk.injEq, true_and] at h
          refine ⟨zstd_rotate st, h.symm, ?_, ?_, ?_⟩
          · rw [← h]; simpa using hne
          · intro hc; simp at hc
          · intro _; rw [← h]; simpa using hfin
        · exact ih _ h

set_option maxRecDepth 100000 in
/-- C10 amended, at a concrete input: the flush loop on a chunk of 1031 bytes
that is not the last exits after a flush step that consumed the input and
returned 7. -/
theorem C10_finish_loop_exit_condition_witness :
    zstd_compress_finish zstdStored 0 0 false 2 heldState = some (true, heldStateFlushed) ∧
    ∃ stp, heldStateFlushed = zstd_cstep zstdStored (zstd_directive false) stp ∧
      zstdStored.ZSTD_isError heldStateFlushed.err = false ∧
      (false = false → heldStateFlushed.inBuffer = []) ∧
      (false = true → heldStateFlushed.err = 0) :=
  ⟨by decide,
   C10_finish_loop_exit_condition zstdStored 0 0 false 2 heldState heldStateFlushed
     (by decide)⟩

end MessageCompress
